import Mathlib

/-!
Verification of the SmartMeet conferencing backend and its client signaling
logic.  The definitions below are a shallow embedding of:

* `backend/utils/meetingStore.js` (`InMemoryMeeting`, `MeetingStore`),
* `backend/socket/socketHandler.js` (the socket event handlers),
* `backend/controllers/meetingController.js` (the HTTP join/leave/end flows),
* the client-side `VideoCall` component (deterministic initiator selection
  and WebRTC glare handling in `handleOffer`).

JavaScript in-place mutation is rendered as explicit state passing; the
socket.io emits performed by a handler are returned as an explicit list of
`Emit` values.  Timestamps (`new Date()` / `Date.now()`) are passed in as
`Nat` parameters.  Message ids (`Date.now() + Math.random()`) are modelled
as `Nat` parameters supplied by the caller.
-/

namespace SmartMeet

/-- One participant entry of `InMemoryMeeting.participants`.
`socketId` is nullable: the HTTP join flow (`meetingController.joinMeeting`)
adds participants with `socketId = null`. -/
structure Participant where
  userId : String
  username : String
  socketId : Option String
  isAudioMuted : Bool := false
  isVideoOff : Bool := false
  isHandRaised : Bool := false
  isScreenSharing : Bool := false
  joinedAt : Nat := 0
deriving DecidableEq

/-- Message kinds: the `type` field set by the chat / file-share / create-poll
handlers. -/
inductive MsgType where
  | text
  | file
  | poll
deriving DecidableEq

/-- One option of a poll message: `{ text, votes, count }` as built by the
`create-poll` handler and updated by the `vote-poll` handler. -/
structure PollOption where
  text : String
  votes : List String
  count : Nat
deriving DecidableEq

/-- A chat-history entry.  JavaScript stores a heterogeneous object; we give
the union of the fields the handlers use (`options`/`question` are only
meaningful when `type = poll`). -/
structure ChatMessage where
  id : Nat
  type : MsgType
  userId : String
  username : String
  message : String := ""
  question : String := ""
  options : List PollOption := []
  timestamp : Nat := 0
deriving DecidableEq

/-- An entry of `InMemoryMeeting.transcript`. -/
structure TranscriptEntry where
  userId : String
  username : String
  text : String
  isFinal : Bool
  timestamp : Nat
deriving DecidableEq

/-- An entry of `InMemoryMeeting.activities`. -/
structure Activity where
  type : String
  userId : String
  username : String
  timestamp : Nat
deriving DecidableEq

/-- The in-memory meeting object (`InMemoryMeeting` in meetingStore.js). -/
structure Meeting where
  meetingId : String
  host : String
  hostUsername : String
  title : String
  participants : List Participant := []
  messages : List ChatMessage := []
  transcript : List TranscriptEntry := []
  activities : List Activity := []
  isActive : Bool := true
deriving DecidableEq

/-- JavaScript's `String.prototype.trim`: strip whitespace from both ends.
(Lean's own `String.trim` is extensionally the same but is built on
well-founded recursion that the kernel will not evaluate, so we embed the
operation directly over the character list.) -/
def trimString (s : String) : String :=
  let l := s.data.dropWhile Char.isWhitespace
  String.mk (l.reverse.dropWhile Char.isWhitespace).reverse

/-- `push` followed by `if (length > cap) shift()`: the bounded-append idiom
used by `addMessage` (cap 500), `addTranscript` (cap 1000) and
`addActivity` (cap 500). -/
def pushBounded (cap : Nat) (l : List α) (e : α) : List α :=
  let l' := l ++ [e]
  if l'.length > cap then l'.drop 1 else l'

/-- `InMemoryMeeting.addActivity`. -/
def Meeting.addActivity (m : Meeting) (type userId username : String) (now : Nat) : Meeting :=
  { m with activities := pushBounded 500 m.activities ⟨type, userId, username, now⟩ }

/-- `InMemoryMeeting.getParticipant`. -/
def Meeting.getParticipant (m : Meeting) (userId : String) : Option Participant :=
  m.participants.find? (fun p => p.userId == userId)

/-- `InMemoryMeeting.addParticipant`: filter out any entry with the same
`userId` (reconnection), push a fresh entry, log a `join` activity. -/
def Meeting.addParticipant (m : Meeting) (userId username : String)
    (socketId : Option String) (now : Nat) : Meeting :=
  let parts := m.participants.filter (fun p => p.userId ≠ userId)
  let participant : Participant :=
    { userId := userId, username := username, socketId := socketId, joinedAt := now }
  let m' := { m with participants := parts ++ [participant] }
  m'.addActivity "join" userId username now

/-- `InMemoryMeeting.removeParticipant`: log a `leave` activity when the
participant exists, then filter it out. -/
def Meeting.removeParticipant (m : Meeting) (userId : String) (now : Nat) : Meeting :=
  let m' :=
    match m.getParticipant userId with
    | some p => m.addActivity "leave" userId p.username now
    | none => m
  { m' with participants := m'.participants.filter (fun p => p.userId ≠ userId) }

/-- The update record passed to `InMemoryMeeting.updateParticipant`
(`undefined` fields rendered as `none`). -/
structure PUpdates where
  socketId : Option (Option String) := none
  isAudioMuted : Option Bool := none
  isVideoOff : Option Bool := none
  isHandRaised : Option Bool := none
  isScreenSharing : Option Bool := none
deriving DecidableEq

/-- Replace the first list entry whose `userId` matches (JavaScript's
`Object.assign` mutates the single object returned by `find`). -/
def replaceFirst : List Participant → String → Participant → List Participant
  | [], _, _ => []
  | q :: rest, uid, p' =>
    if q.userId == uid then p' :: rest else q :: replaceFirst rest uid p'

/-- One of the four `if (updates.x !== undefined && updates.x !== participant.x)
addActivity(...)` blocks of `InMemoryMeeting.updateParticipant`. -/
def logFlagActivity (m : Meeting) (vo : Option Bool) (cur : Bool) (tTrue tFalse : String)
    (userId username : String) (now : Nat) : Meeting :=
  match vo with
  | some v =>
    if v ≠ cur then m.addActivity (if v then tTrue else tFalse) userId username now else m
  | none => m

/-- `InMemoryMeeting.updateParticipant`: log activities for changed flags
(in source order: hand, screen, audio, video), then assign the updates. -/
def Meeting.updateParticipant (m : Meeting) (userId : String) (u : PUpdates) (now : Nat) :
    Meeting :=
  match m.getParticipant userId with
  | none => m
  | some p =>
    let m1 := logFlagActivity m u.isHandRaised p.isHandRaised
      "hand-raise" "hand-lower" userId p.username now
    let m2 := logFlagActivity m1 u.isScreenSharing p.isScreenSharing
      "screen-share-start" "screen-share-stop" userId p.username now
    let m3 := logFlagActivity m2 u.isAudioMuted p.isAudioMuted
      "mute" "unmute" userId p.username now
    let m4 := logFlagActivity m3 u.isVideoOff p.isVideoOff
      "video-off" "video-on" userId p.username now
    let p' : Participant :=
      { p with
        socketId := u.socketId.getD p.socketId
        isAudioMuted := u.isAudioMuted.getD p.isAudioMuted
        isVideoOff := u.isVideoOff.getD p.isVideoOff
        isHandRaised := u.isHandRaised.getD p.isHandRaised
        isScreenSharing := u.isScreenSharing.getD p.isScreenSharing }
    { m4 with participants := replaceFirst m4.participants userId p' }

/-- `InMemoryMeeting.addMessage` (cap 500, oldest evicted first). -/
def Meeting.addMessage (m : Meeting) (msg : ChatMessage) : Meeting :=
  { m with messages := pushBounded 500 m.messages msg }

/-- `InMemoryMeeting.getChatHistory`. -/
def Meeting.getChatHistory (m : Meeting) : List ChatMessage :=
  m.messages

/-- `InMemoryMeeting.addTranscript`: drop empty text, store the trimmed text
together with the `isFinal` flag as received (cap 1000). -/
def Meeting.addTranscript (m : Meeting) (userId username text : String) (isFinal : Bool)
    (now : Nat) : Meeting :=
  if trimString text = "" then m
  else
    { m with
      transcript :=
        pushBounded 1000 m.transcript ⟨userId, username, trimString text, isFinal, now⟩ }

/-- `new InMemoryMeeting(meetingId, host, hostUsername, title)`. -/
def mkMeeting (meetingId host hostUsername title : String) : Meeting :=
  { meetingId := meetingId, host := host, hostUsername := hostUsername, title := title }

/-! ## The vote-poll option update

From the `vote-poll` handler in socketHandler.js:
remove the voter from every option's `votes`, then push them onto the
selected option (when `idx === data.optionIndex`), recomputing `count`. -/

/-- The `poll.options = poll.options.map((opt, idx) => ...)` body of the
`vote-poll` handler. -/
def voteOptions (userId : String) (optionIndex : Nat) (options : List PollOption) :
    List PollOption :=
  (options.enum).map (fun pr =>
    let idx := pr.1
    let opt := pr.2
    let votes := opt.votes.filter (fun v => v ≠ userId)
    let votes := if idx = optionIndex then votes ++ [userId] else votes
    { opt with votes := votes, count := votes.length })

/-- Locate a poll message by id in the chat history and apply `voteOptions`
to it (the handler mutates `chatHistory[pollIndex]` in place; the chat
history aliases `meeting.messages`). -/
def Meeting.votePoll (m : Meeting) (pollId : Nat) (userId : String) (optionIndex : Nat) :
    Meeting :=
  match m.messages.findIdx? (fun msg => msg.id == pollId && msg.type == MsgType.poll) with
  | none => m
  | some i =>
    match m.messages.get? i with
    | none => m
    | some poll =>
      { m with
        messages := m.messages.set i
          { poll with options := voteOptions userId optionIndex poll.options } }

/-! ## Server state and the socket handlers (socketHandler.js)

`activeSockets` is the module-level `Map` of socketHandler.js; `rooms`
models socket.io room membership (`socket.join` / `socket.leave`);
`meetings` is the `MeetingStore`'s in-memory `Map`.  `getMeeting`'s
database-rehydration branch is represented by a separate `rehydrate`
operation (it inserts a fresh shell with an empty participant list), since
the durable store itself is an external collaborator. -/

/-- The value stored in `activeSockets`: `{ userId, username, meetingId }`. -/
structure Session where
  userId : String
  username : String
  meetingId : String
deriving DecidableEq

/-- A roster entry of the `joined-meeting` reply (participants with a live
socket, excluding the joiner). -/
structure RosterEntry where
  socketId : String
  userId : String
  username : String
  isAudioMuted : Bool
  isVideoOff : Bool
  isHandRaised : Bool
  isScreenSharing : Bool
deriving DecidableEq

/-- Payload of a `vote-poll` event. -/
structure VoteData where
  meetingId : String
  pollId : Nat
  userId : String
  username : String
  optionIndex : Nat
deriving DecidableEq

/-- The socket.io emissions a handler performs, one constructor per emit
site, carrying the payload fields the code sends.  `room`/`exceptSocket`
render `socket.to(room).emit` (room minus the sender); constructors without
`exceptSocket` render `io.to(...)`. -/
inductive Emit where
  | errorMsg (toSocket message : String)
  | userDisconnected (room exceptSocket userId username socketId : String)
  | joinedMeeting (toSocket meetingId : String) (participants : List RosterEntry)
      (yourSocketId : String) (chatHistory : List ChatMessage)
  | userJoined (room exceptSocket userId username socketId : String) (timestamp : Nat)
  | userLeft (room exceptSocket userId socketId : String)
  | pollVoted (room : String) (data : VoteData)
  | transcriptUpdate (room exceptSocket userId username text : String) (isFinal : Bool)
      (timestamp : Nat)
  | forceMute (toSocket : String)
  | audioToggled (room userId : String) (isAudioMuted : Bool)
  | kickedFromMeeting (toSocket : String)
  | userKicked (room userId username socketId : String)
  | chatMessageEv (room : String) (msg : ChatMessage)
deriving DecidableEq

/-- The server's mutable state. -/
structure ServerState where
  meetings : List (String × Meeting) := []
  activeSockets : List (String × Session) := []
  rooms : List (String × String) := []
  connectedSockets : List String := []
deriving DecidableEq

/-- Association-list lookup (JavaScript `Map.get`). -/
def lookupM : List (String × α) → String → Option α
  | [], _ => none
  | (k, v) :: rest, key => if k = key then some v else lookupM rest key

/-- Association-list insert-or-replace (JavaScript `Map.set`). -/
def setM : List (String × α) → String → α → List (String × α)
  | [], k, v => [(k, v)]
  | (k', v') :: rest, k, v =>
    if k' = k then (k, v) :: rest else (k', v') :: setM rest k v

/-- Association-list delete (JavaScript `Map.delete`). -/
def delM (l : List (String × α)) (k : String) : List (String × α) :=
  l.filter (fun pr => pr.1 ≠ k)

/-- `socket.join(room)`: idempotent room membership. -/
def joinRoom (rooms : List (String × String)) (room sid : String) : List (String × String) :=
  if (room, sid) ∈ rooms then rooms else rooms ++ [(room, sid)]

/-- `socket.leave(room)`. -/
def leaveRoom (rooms : List (String × String)) (room sid : String) : List (String × String) :=
  rooms.filter (fun pr => pr ≠ (room, sid))

/-- The roster sent to a joiner: participants with a non-null socket id
other than the joiner's own (`p.socketId && p.socketId !== socket.id`). -/
def rosterOf (parts : List Participant) (selfSid : String) : List RosterEntry :=
  parts.filterMap (fun p =>
    match p.socketId with
    | none => none
    | some s =>
      if s = selfSid then none
      else some ⟨s, p.userId, p.username, p.isAudioMuted, p.isVideoOff,
        p.isHandRaised, p.isScreenSharing⟩)

/-- The `join-meeting` handler. -/
def joinMeetingH (st : ServerState) (sid meetingId userId username : String) (now : Nat) :
    ServerState × List Emit :=
  match lookupM st.meetings meetingId with
  | none => (st, [.errorMsg sid "Meeting not found"])
  | some m =>
    if !m.isActive then (st, [.errorMsg sid "Meeting not found"])
    else
      let rooms := joinRoom st.rooms meetingId sid
      let socks := setM st.activeSockets sid ⟨userId, username, meetingId⟩
      let (m', socks, reconnectEmits) :=
        match m.getParticipant userId with
        | none => (m.addParticipant userId username (some sid) now, socks, [])
        | some existing =>
          let (socks, reconnectEmits) :=
            match existing.socketId with
            | some oldSid =>
              if oldSid ≠ sid then
                (delM socks oldSid,
                  [Emit.userDisconnected meetingId sid userId username oldSid])
              else (socks, [])
            | none => (socks, [])
          (m.updateParticipant userId { socketId := some (some sid) } now, socks,
            reconnectEmits)
      let roster := rosterOf m'.participants sid
      ({ st with
          meetings := setM st.meetings meetingId m'
          activeSockets := socks
          rooms := rooms },
        reconnectEmits ++
          [.joinedMeeting sid meetingId roster sid m'.getChatHistory,
            .userJoined meetingId sid userId username sid now])

/-- The `leave-meeting` handler. -/
def leaveMeetingH (st : ServerState) (sid meetingId userId : String) (now : Nat) :
    ServerState × List Emit :=
  let (meetings, emits) :=
    match lookupM st.meetings meetingId with
    | none => (st.meetings, [])
    | some m =>
      (setM st.meetings meetingId (m.removeParticipant userId now),
        [Emit.userLeft meetingId sid userId sid])
  ({ st with
      meetings := meetings
      rooms := leaveRoom st.rooms meetingId sid
      activeSockets := delM st.activeSockets sid },
    emits)

/-- The transport `disconnect` handler: notify the room, delete the
`activeSockets` entry, leave the Participant record (and the whole meeting)
untouched. -/
def disconnectH (st : ServerState) (sid : String) : ServerState × List Emit :=
  match lookupM st.activeSockets sid with
  | none => (st, [])
  | some sess =>
    let emits :=
      match lookupM st.meetings sess.meetingId with
      | none => []
      | some _ =>
        [Emit.userDisconnected sess.meetingId sid sess.userId sess.username sid]
    ({ st with activeSockets := delM st.activeSockets sid }, emits)

/-- Payload of a `chat-message` event (id generated server-side). -/
structure ChatData where
  meetingId : String
  userId : String
  username : String
  message : String
  timestamp : Nat
deriving DecidableEq

/-- The `chat-message` handler: store with a fresh id and `type: 'text'`,
broadcast to the whole room. -/
def chatMessageH (st : ServerState) (d : ChatData) (freshId : Nat) :
    ServerState × List Emit :=
  match lookupM st.meetings d.meetingId with
  | none => (st, [])
  | some m =>
    let msg : ChatMessage :=
      { id := freshId, type := .text, userId := d.userId, username := d.username,
        message := d.message, timestamp := d.timestamp }
    ({ st with meetings := setM st.meetings d.meetingId (m.addMessage msg) },
      [.chatMessageEv d.meetingId msg])

/-- The `vote-poll` handler: update the poll when the meeting and poll
exist; the `poll-voted` broadcast happens unconditionally (it sits outside
the `if (meeting)` block). -/
def votePollH (st : ServerState) (d : VoteData) : ServerState × List Emit :=
  let meetings :=
    match lookupM st.meetings d.meetingId with
    | none => st.meetings
    | some m => setM st.meetings d.meetingId (m.votePoll d.pollId d.userId d.optionIndex)
  ({ st with meetings := meetings }, [.pollVoted d.meetingId d])

/-- Payload of a `transcript` event. -/
structure TranscriptData where
  meetingId : String
  userId : String
  username : String
  text : String
  isFinal : Bool
deriving DecidableEq

/-- The `transcript` handler: when the meeting exists and the text is
non-empty after trimming, store the entry (whatever its `isFinal` flag) and
broadcast a `transcript-update` to the rest of the room. -/
def transcriptH (st : ServerState) (sid : String) (d : TranscriptData) (now : Nat) :
    ServerState × List Emit :=
  match lookupM st.meetings d.meetingId with
  | none => (st, [])
  | some m =>
    if d.text ≠ "" ∧ trimString d.text ≠ "" then
      ({ st with
          meetings := setM st.meetings d.meetingId
            (m.addTranscript d.userId d.username d.text d.isFinal now) },
        [.transcriptUpdate d.meetingId sid d.userId d.username d.text d.isFinal now])
    else (st, [])

/-- The `toggle-audio` handler (the `toggle-video` / `raise-hand` /
`screen-share` handlers are identical up to the flag updated; an
`audioToggled` emit stands for the respective `-toggled` broadcast). -/
def toggleAudioH (st : ServerState) (meetingId userId : String) (isAudioMuted : Bool)
    (now : Nat) : ServerState × List Emit :=
  match lookupM st.meetings meetingId with
  | none => (st, [])
  | some m =>
    ({ st with
        meetings := setM st.meetings meetingId
          (m.updateParticipant userId { isAudioMuted := some isAudioMuted } now) },
      [.audioToggled meetingId userId isAudioMuted])

/-- Payload of a `host-mute-participant` event. -/
structure MuteData where
  meetingId : String
  hostUserId : String
  targetUserId : String
  targetSocketId : String
deriving DecidableEq

/-- The `host-mute-participant` handler: only when `meeting.host` equals the
requester's `hostUserId` does anything happen; otherwise the request is
silently dropped (no state change, no emit). -/
def hostMuteH (st : ServerState) (d : MuteData) (now : Nat) : ServerState × List Emit :=
  match lookupM st.meetings d.meetingId with
  | none => (st, [])
  | some m =>
    if m.host = d.hostUserId then
      ({ st with
          meetings := setM st.meetings d.meetingId
            (m.updateParticipant d.targetUserId { isAudioMuted := some true } now) },
        [.forceMute d.targetSocketId,
          .audioToggled d.meetingId d.targetUserId true])
    else (st, [])

/-- Payload of a `host-kick-participant` event. -/
structure KickData where
  meetingId : String
  hostUserId : String
  targetUserId : String
  targetSocketId : String
  targetUsername : String
deriving DecidableEq

/-- The `host-kick-participant` handler: authorization gate as in
`hostMuteH`; on success notify the target, force it out of the room (when
its socket is still connected), remove the Participant, broadcast
`user-kicked`. -/
def hostKickH (st : ServerState) (d : KickData) (now : Nat) : ServerState × List Emit :=
  match lookupM st.meetings d.meetingId with
  | none => (st, [])
  | some m =>
    if m.host = d.hostUserId then
      let rooms :=
        if d.targetSocketId ∈ st.connectedSockets then
          leaveRoom st.rooms d.meetingId d.targetSocketId
        else st.rooms
      ({ st with
          meetings := setM st.meetings d.meetingId (m.removeParticipant d.targetUserId now)
          rooms := rooms },
        [.kickedFromMeeting d.targetSocketId,
          .userKicked d.meetingId d.targetUserId d.targetUsername d.targetSocketId])
    else (st, [])

/-! ## HTTP flows (meetingController.js) and store operations -/

/-- `MeetingStore.createMeeting`, as invoked by `POST /api/meetings/create`. -/
def createMeetingH (st : ServerState) (meetingId host hostUsername title : String) :
    ServerState :=
  { st with meetings := setM st.meetings meetingId (mkMeeting meetingId host hostUsername title) }

/-- The database-rehydration branch of `MeetingStore.getMeeting`: a fresh
shell with an empty participant list is materialized in memory. -/
def rehydrateH (st : ServerState) (meetingId host hostUsername title : String) :
    ServerState :=
  { st with meetings := setM st.meetings meetingId (mkMeeting meetingId host hostUsername title) }

/-- `POST /api/meetings/:meetingId/join`: `addParticipant` with a null
socket id (updated later when the socket connects). -/
def httpJoinH (st : ServerState) (meetingId userId username : String) (now : Nat) :
    ServerState :=
  match lookupM st.meetings meetingId with
  | none => st
  | some m =>
    if !m.isActive then st
    else { st with meetings := setM st.meetings meetingId (m.addParticipant userId username none now) }

/-- `POST /api/meetings/:meetingId/leave`. -/
def httpLeaveH (st : ServerState) (meetingId userId : String) (now : Nat) : ServerState :=
  match lookupM st.meetings meetingId with
  | none => st
  | some m => { st with meetings := setM st.meetings meetingId (m.removeParticipant userId now) }

/-- `POST /api/meetings/:meetingId/end` (host check, then `isActive = false`). -/
def httpEndH (st : ServerState) (meetingId userId : String) : ServerState :=
  match lookupM st.meetings meetingId with
  | none => st
  | some m =>
    if m.host ≠ userId then st
    else { st with meetings := setM st.meetings meetingId { m with isActive := false } }

/-- All the operations that can touch server state, for stating reachability
invariants. -/
inductive ServerOp where
  | join (sid meetingId userId username : String) (now : Nat)
  | leave (sid meetingId userId : String) (now : Nat)
  | disconnect (sid : String)
  | chat (d : ChatData) (freshId : Nat)
  | vote (d : VoteData)
  | transcriptEv (sid : String) (d : TranscriptData) (now : Nat)
  | toggleAudio (meetingId userId : String) (isAudioMuted : Bool) (now : Nat)
  | hostMute (d : MuteData) (now : Nat)
  | hostKick (d : KickData) (now : Nat)
  | httpCreate (meetingId host hostUsername title : String)
  | rehydrate (meetingId host hostUsername title : String)
  | httpJoin (meetingId userId username : String) (now : Nat)
  | httpLeave (meetingId userId : String) (now : Nat)
  | httpEnd (meetingId userId : String)

/-- One step of the event loop. -/
def step (st : ServerState) : ServerOp → ServerState × List Emit
  | .join sid mid uid uname now => joinMeetingH st sid mid uid uname now
  | .leave sid mid uid now => leaveMeetingH st sid mid uid now
  | .disconnect sid => disconnectH st sid
  | .chat d freshId => chatMessageH st d freshId
  | .vote d => votePollH st d
  | .transcriptEv sid d now => transcriptH st sid d now
  | .toggleAudio mid uid v now => toggleAudioH st mid uid v now
  | .hostMute d now => hostMuteH st d now
  | .hostKick d now => hostKickH st d now
  | .httpCreate mid h hn t => (createMeetingH st mid h hn t, [])
  | .rehydrate mid h hn t => (rehydrateH st mid h hn t, [])
  | .httpJoin mid uid uname now => (httpJoinH st mid uid uname now, [])
  | .httpLeave mid uid now => (httpLeaveH st mid uid now, [])
  | .httpEnd mid uid => (httpEndH st mid uid, [])

/-- Run a sequence of operations from a starting state. -/
def runOps (st : ServerState) (ops : List ServerOp) : ServerState :=
  ops.foldl (fun s op => (step s op).1) st

/-- The empty server at process start. -/
def initState : ServerState := {}

/-! ## Client-side signaling (the `VideoCall` component)

Deterministic initiator selection: both the `joined-meeting` and the
`user-joined` handlers compute `const shouldInitiate = localId < remoteId`
from the socket ids of the moment (`socket.id` versus the event's
`socketId`), with no cached value involved. -/

/-- `localId < remoteId`: JavaScript string comparison, lexicographic on the
ids treated as opaque strings. -/
def shouldInitiate (localId remoteId : String) : Bool :=
  localId < remoteId

/-- The connection id both sides agree is the offer initiator. -/
def initiatorOf (a b : String) : String :=
  if shouldInitiate a b then a else b

/-- A participant entry of the client's `participants` state. -/
structure CParticipant where
  socketId : String
  userId : String
  username : String
  isAudioMuted : Bool := false
  isVideoOff : Bool := false
  isHandRaised : Bool := false
  isScreenSharing : Bool := false
deriving DecidableEq

/-- Payload of a `user-joined` event as seen by the client. -/
structure UserJoinedData where
  userId : String
  username : String
  socketId : String
deriving DecidableEq

/-- The `setParticipants` updater of the `user-joined` handler: a rejoining
user with a new socket id replaces their old entry; a duplicate event for
the same socket id is ignored; otherwise append. -/
def userJoinedParticipants (prev : List CParticipant) (d : UserJoinedData) :
    List CParticipant :=
  match prev.find? (fun p => p.userId == d.userId) with
  | some existingByUser =>
    if existingByUser.socketId ≠ d.socketId then
      prev.filter (fun p => p.userId ≠ d.userId) ++
        [⟨d.socketId, d.userId, d.username, false, false, false, false⟩]
    else prev
  | none => prev ++ [⟨d.socketId, d.userId, d.username, false, false, false, false⟩]

/-- The peer-connection decision of the `user-joined` handler: `some
(remoteId, flag)` when a new connection is created (`flag` is the
`shouldInitiate` passed to `createPeerConnection`), `none` when the handler
creates nothing.  `pcs` is the domain of the `peerConnections` map,
`hasStream` is `localStreamRef.current` truthiness; an absent remote id is
rendered as `""` (falsy). -/
def userJoinedPcDecision (localId : String) (hasStream : Bool) (pcs : List String)
    (d : UserJoinedData) : Option (String × Bool) :=
  if d.socketId = "" ∨ d.socketId = localId then none
  else if hasStream ∧ ¬ (d.socketId ∈ pcs) then
    some (d.socketId, shouldInitiate localId d.socketId)
  else none

/-- The per-participant peer-connection decision of the `joined-meeting`
handler (the loop body over `data.participants`, guarded by
`localStreamRef.current`). -/
def joinedMeetingPcDecision (localId : String) (hasStream : Bool) (pcs : List String)
    (remoteId : String) : Option (String × Bool) :=
  if ¬ hasStream then none
  else if remoteId = "" ∨ remoteId = localId then none
  else if remoteId ∈ pcs then none
  else some (remoteId, shouldInitiate localId remoteId)

/-! ## Glare handling (`handleOffer` in the `VideoCall` component)

We model the slice of an `RTCPeerConnection` that `handleOffer` inspects:
its signaling state.  `answerEmit target` stands for
`socketRef.current.emit('answer', { target, answer })`. -/

/-- WebRTC signaling states. -/
inductive SigState where
  | stable
  | haveLocalOffer
  | haveRemoteOffer
  | haveLocalPranswer
  | haveRemotePranswer
  | closed
deriving DecidableEq

/-- The modelled peer connection. -/
structure PeerConn where
  signalingState : SigState
deriving DecidableEq

/-- Client-side emissions of `handleOffer`. -/
inductive ClientEmit where
  | answerEmit (target : String)
deriving DecidableEq

/-- The tail of `handleOffer` after glare/recreation handling:
`setRemoteDescription(offer)`, `createAnswer`, `setLocalDescription(answer)`
and the `answer` emit, allowed only from `stable` or `have-remote-offer`. -/
def answerPhase (senderId : String) (pc : PeerConn) : Option PeerConn × List ClientEmit :=
  if pc.signalingState = .stable ∨ pc.signalingState = .haveRemoteOffer then
    (some { signalingState := .stable }, [.answerEmit senderId])
  else
    (some pc, [])

/-- `handleOffer(offer, senderId)`: glare is resolved by comparing socket
ids — when the local peer is in `have-local-offer`, the side with the
*smaller* id rolls back its own offer and answers the incoming one, the
side with the larger id returns without touching anything.  A connection in
another conflicting state is recreated; a missing connection is created
fresh (state `stable`). -/
def handleOffer (localId senderId : String) (pc? : Option PeerConn) :
    Option PeerConn × List ClientEmit :=
  match pc? with
  | some pc =>
    if pc.signalingState = .haveLocalOffer then
      if shouldInitiate localId senderId then
        answerPhase senderId { signalingState := .stable }
      else
        (some pc, [])
    else if pc.signalingState ≠ .stable ∧ pc.signalingState ≠ .haveRemoteOffer then
      answerPhase senderId { signalingState := .stable }
    else
      answerPhase senderId pc
  | none => answerPhase senderId { signalingState := .stable }

/-! ## Invariants and sample objects used by the verification -/

/-- The invariant every reachable meeting satisfies: unique participant
userIds and bounded logs. -/
def MInv (m : Meeting) : Prop :=
  (m.participants.map Participant.userId).Nodup ∧
    m.messages.length ≤ 500 ∧ m.transcript.length ≤ 1000 ∧ m.activities.length ≤ 500

/-- The server invariant: every resident meeting satisfies `MInv`. -/
def SInv (st : ServerState) : Prop :=
  ∀ pr ∈ st.meetings, MInv pr.2

/-- A sample participant (socket "old") for concrete instantiations. -/
def sampleParticipant : Participant :=
  { userId := "u1", username := "Alice", socketId := some "old" }

/-- A sample meeting hosted by "h" containing `sampleParticipant`. -/
def sampleMeeting : Meeting :=
  { mkMeeting "M1" "h" "Host" "Demo" with participants := [sampleParticipant] }

/-- A sample server state with `sampleMeeting` resident and the "old"
socket registered. -/
def sampleState : ServerState :=
  { meetings := [("M1", sampleMeeting)]
    activeSockets := [("old", ⟨"u1", "Alice", "M1"⟩)]
    rooms := [("M1", "old")]
    connectedSockets := ["old"] }

/-- A meeting whose chat log is at the 500-message cap. -/
def fullMeeting : Meeting :=
  { mkMeeting "M1" "h" "Host" "Demo" with
    messages := (List.range 500).map (fun i =>
      { id := i, type := .text, userId := "u", username := "U" }) }

/-- One more chat message, to overflow `fullMeeting`. -/
def extraMsg : ChatMessage :=
  { id := 999, type := .text, userId := "u", username := "U" }

/-- Sample poll options: "A" with one vote by "u2", "B" with none. -/
def samplePollOptions : List PollOption :=
  [⟨"A", ["u2"], 1⟩, ⟨"B", [], 0⟩]

/-! ## Basic lemmas about the bounded-append idiom -/

theorem length_pushBounded_le {α : Type} {cap : Nat} {l : List α} (e : α)
    (h : l.length ≤ cap) : (pushBounded cap l e).length ≤ cap := by
  unfold pushBounded
  dsimp only
  split
  · simpa using h
  · rename_i hgt
    simp only [not_lt, List.length_append, List.length_singleton] at hgt
    simpa using hgt

theorem pushBounded_full {α : Type} {cap : Nat} {l : List α} (e : α)
    (hl : l.length = cap) (hpos : 0 < cap) : pushBounded cap l e = l.drop 1 ++ [e] := by
  cases l with
  | nil => simp at hl; omega
  | cons x xs =>
    have hx : xs.length + 1 = cap := by simpa using hl
    unfold pushBounded
    dsimp only
    rw [if_pos]
    · rfl
    · simp only [List.length_cons, List.length_append, List.length_singleton]
      omega

/-! ## Lemmas about the meeting operations -/

theorem addActivity_participants (m : Meeting) (t u n : String) (now : Nat) :
    (m.addActivity t u n now).participants = m.participants := rfl

theorem addActivity_messages (m : Meeting) (t u n : String) (now : Nat) :
    (m.addActivity t u n now).messages = m.messages := rfl

theorem addActivity_transcript (m : Meeting) (t u n : String) (now : Nat) :
    (m.addActivity t u n now).transcript = m.transcript := rfl

theorem addActivity_activities_le (m : Meeting) (t u n : String) (now : Nat)
    (h : m.activities.length ≤ 500) : (m.addActivity t u n now).activities.length ≤ 500 :=
  length_pushBounded_le _ h

theorem addMessage_bound (m : Meeting) (msg : ChatMessage)
    (h : m.messages.length ≤ 500) : (m.addMessage msg).messages.length ≤ 500 :=
  length_pushBounded_le _ h

theorem addTranscript_bound (m : Meeting) (uid uname text : String) (f : Bool) (now : Nat)
    (h : m.transcript.length ≤ 1000) :
    (m.addTranscript uid uname text f now).transcript.length ≤ 1000 := by
  unfold Meeting.addTranscript
  split
  · exact h
  · exact length_pushBounded_le _ h

theorem addTranscript_participants (m : Meeting) (uid uname text : String) (f : Bool)
    (now : Nat) : (m.addTranscript uid uname text f now).participants = m.participants := by
  unfold Meeting.addTranscript
  split <;> rfl

theorem addTranscript_messages (m : Meeting) (uid uname text : String) (f : Bool)
    (now : Nat) : (m.addTranscript uid uname text f now).messages = m.messages := by
  unfold Meeting.addTranscript
  split <;> rfl

theorem addTranscript_activities (m : Meeting) (uid uname text : String) (f : Bool)
    (now : Nat) : (m.addTranscript uid uname text f now).activities = m.activities := by
  unfold Meeting.addTranscript
  split <;> rfl

theorem addParticipant_nodup (m : Meeting) (uid uname : String) (sid : Option String)
    (now : Nat) (h : (m.participants.map Participant.userId).Nodup) :
    ((m.addParticipant uid uname sid now).participants.map Participant.userId).Nodup := by
  unfold Meeting.addParticipant
  rw [addActivity_participants]
  dsimp only
  rw [List.map_append]
  rw [List.nodup_append]
  refine ⟨h.sublist ((List.filter_sublist _).map _), List.nodup_singleton _, ?_⟩
  intro x hx
  simp only [List.mem_map] at hx
  obtain ⟨p, hp, rfl⟩ := hx
  have := List.of_mem_filter hp
  simp only [decide_eq_true_eq] at this
  simp [this]

theorem addParticipant_messages (m : Meeting) (uid uname : String) (sid : Option String)
    (now : Nat) : (m.addParticipant uid uname sid now).messages = m.messages := rfl

theorem addParticipant_transcript (m : Meeting) (uid uname : String) (sid : Option String)
    (now : Nat) : (m.addParticipant uid uname sid now).transcript = m.transcript := rfl

theorem addParticipant_activities_le (m : Meeting) (uid uname : String)
    (sid : Option String) (now : Nat) (h : m.activities.length ≤ 500) :
    (m.addParticipant uid uname sid now).activities.length ≤ 500 :=
  length_pushBounded_le _ h

theorem removeParticipant_nodup (m : Meeting) (uid : String) (now : Nat)
    (h : (m.participants.map Participant.userId).Nodup) :
    ((m.removeParticipant uid now).participants.map Participant.userId).Nodup := by
  unfold Meeting.removeParticipant
  cases m.getParticipant uid <;>
    exact h.sublist ((List.filter_sublist _).map _)

theorem removeParticipant_messages (m : Meeting) (uid : String) (now : Nat) :
    (m.removeParticipant uid now).messages = m.messages := by
  unfold Meeting.removeParticipant
  cases m.getParticipant uid <;> rfl

theorem removeParticipant_transcript (m : Meeting) (uid : String) (now : Nat) :
    (m.removeParticipant uid now).transcript = m.transcript := by
  unfold Meeting.removeParticipant
  cases m.getParticipant uid <;> rfl

theorem removeParticipant_activities_le (m : Meeting) (uid : String) (now : Nat)
    (h : m.activities.length ≤ 500) :
    (m.removeParticipant uid now).activities.length ≤ 500 := by
  unfold Meeting.removeParticipant
  cases m.getParticipant uid
  · exact h
  · exact length_pushBounded_le _ h

theorem replaceFirst_map_userId (l : List Participant) (uid : String) (p' : Participant)
    (h : p'.userId = uid) :
    (replaceFirst l uid p').map Participant.userId = l.map Participant.userId := by
  induction l with
  | nil => rfl
  | cons q rest ih =>
    unfold replaceFirst
    split
    · rename_i hq
      simp only [beq_iff_eq] at hq
      simp [h, hq]
    · simp [ih]

theorem replaceFirst_length (l : List Participant) (uid : String) (p' : Participant) :
    (replaceFirst l uid p').length = l.length := by
  induction l with
  | nil => rfl
  | cons q rest ih =>
    unfold replaceFirst
    split
    · simp
    · simp [ih]

theorem getParticipant_userId {m : Meeting} {uid : String} {p : Participant}
    (h : m.getParticipant uid = some p) : p.userId = uid := by
  have := List.find?_some h
  simpa using this

theorem logFlagActivity_messages (m : Meeting) (vo : Option Bool) (cur : Bool)
    (t1 t2 uid un : String) (now : Nat) :
    (logFlagActivity m vo cur t1 t2 uid un now).messages = m.messages := by
  unfold logFlagActivity
  repeat' split
  all_goals rfl

theorem logFlagActivity_transcript (m : Meeting) (vo : Option Bool) (cur : Bool)
    (t1 t2 uid un : String) (now : Nat) :
    (logFlagActivity m vo cur t1 t2 uid un now).transcript = m.transcript := by
  unfold logFlagActivity
  repeat' split
  all_goals rfl

theorem logFlagActivity_participants (m : Meeting) (vo : Option Bool) (cur : Bool)
    (t1 t2 uid un : String) (now : Nat) :
    (logFlagActivity m vo cur t1 t2 uid un now).participants = m.participants := by
  unfold logFlagActivity
  repeat' split
  all_goals rfl

theorem logFlagActivity_activities_le (m : Meeting) (vo : Option Bool) (cur : Bool)
    (t1 t2 uid un : String) (now : Nat) (h : m.activities.length ≤ 500) :
    (logFlagActivity m vo cur t1 t2 uid un now).activities.length ≤ 500 := by
  unfold logFlagActivity
  repeat' split
  all_goals first
    | exact h
    | exact length_pushBounded_le _ h

theorem updateParticipant_messages (m : Meeting) (uid : String) (u : PUpdates) (now : Nat) :
    (m.updateParticipant uid u now).messages = m.messages := by
  unfold Meeting.updateParticipant
  cases m.getParticipant uid
  · rfl
  · simp only [logFlagActivity_messages]

theorem updateParticipant_transcript (m : Meeting) (uid : String) (u : PUpdates)
    (now : Nat) : (m.updateParticipant uid u now).transcript = m.transcript := by
  unfold Meeting.updateParticipant
  cases m.getParticipant uid
  · rfl
  · simp only [logFlagActivity_transcript]

theorem updateParticipant_map_userId (m : Meeting) (uid : String) (u : PUpdates)
    (now : Nat) :
    (m.updateParticipant uid u now).participants.map Participant.userId =
      m.participants.map Participant.userId := by
  unfold Meeting.updateParticipant
  cases hp : m.getParticipant uid
  · rfl
  · rename_i p
    have huid : p.userId = uid := getParticipant_userId hp
    simp only [logFlagActivity_participants]
    exact replaceFirst_map_userId _ _ _ huid

theorem updateParticipant_length (m : Meeting) (uid : String) (u : PUpdates) (now : Nat) :
    (m.updateParticipant uid u now).participants.length = m.participants.length := by
  have h := congrArg List.length (updateParticipant_map_userId m uid u now)
  simpa using h

theorem updateParticipant_activities_le (m : Meeting) (uid : String) (u : PUpdates)
    (now : Nat) (h : m.activities.length ≤ 500) :
    (m.updateParticipant uid u now).activities.length ≤ 500 := by
  unfold Meeting.updateParticipant
  cases m.getParticipant uid
  · exact h
  · exact logFlagActivity_activities_le _ _ _ _ _ _ _ _
      (logFlagActivity_activities_le _ _ _ _ _ _ _ _
        (logFlagActivity_activities_le _ _ _ _ _ _ _ _
          (logFlagActivity_activities_le _ _ _ _ _ _ _ _ h)))

theorem votePoll_participants (m : Meeting) (pid : Nat) (uid : String) (idx : Nat) :
    (m.votePoll pid uid idx).participants = m.participants := by
  unfold Meeting.votePoll
  repeat' split
  all_goals rfl

theorem votePoll_transcript (m : Meeting) (pid : Nat) (uid : String) (idx : Nat) :
    (m.votePoll pid uid idx).transcript = m.transcript := by
  unfold Meeting.votePoll
  repeat' split
  all_goals rfl

theorem votePoll_activities (m : Meeting) (pid : Nat) (uid : String) (idx : Nat) :
    (m.votePoll pid uid idx).activities = m.activities := by
  unfold Meeting.votePoll
  repeat' split
  all_goals rfl

theorem votePoll_messages_length (m : Meeting) (pid : Nat) (uid : String) (idx : Nat) :
    (m.votePoll pid uid idx).messages.length = m.messages.length := by
  unfold Meeting.votePoll
  repeat' split
  all_goals simp

/-! ## The per-meeting invariant -/

theorem MInv_mk (meetingId host hostUsername title : String) :
    MInv (mkMeeting meetingId host hostUsername title) := by
  refine ⟨?_, ?_, ?_, ?_⟩ <;> simp [mkMeeting]

theorem MInv_addParticipant {m : Meeting} (h : MInv m) (uid uname : String)
    (sid : Option String) (now : Nat) : MInv (m.addParticipant uid uname sid now) := by
  obtain ⟨h1, h2, h3, h4⟩ := h
  exact ⟨addParticipant_nodup m uid uname sid now h1,
    by rw [addParticipant_messages]; exact h2,
    by rw [addParticipant_transcript]; exact h3,
    addParticipant_activities_le m uid uname sid now h4⟩

theorem MInv_removeParticipant {m : Meeting} (h : MInv m) (uid : String) (now : Nat) :
    MInv (m.removeParticipant uid now) := by
  obtain ⟨h1, h2, h3, h4⟩ := h
  exact ⟨removeParticipant_nodup m uid now h1,
    by rw [removeParticipant_messages]; exact h2,
    by rw [removeParticipant_transcript]; exact h3,
    removeParticipant_activities_le m uid now h4⟩

theorem MInv_updateParticipant {m : Meeting} (h : MInv m) (uid : String) (u : PUpdates)
    (now : Nat) : MInv (m.updateParticipant uid u now) := by
  obtain ⟨h1, h2, h3, h4⟩ := h
  exact ⟨by rw [updateParticipant_map_userId]; exact h1,
    by rw [updateParticipant_messages]; exact h2,
    by rw [updateParticipant_transcript]; exact h3,
    updateParticipant_activities_le m uid u now h4⟩

theorem MInv_addMessage {m : Meeting} (h : MInv m) (msg : ChatMessage) :
    MInv (m.addMessage msg) := by
  obtain ⟨h1, h2, h3, h4⟩ := h
  exact ⟨h1, addMessage_bound m msg h2, h3, h4⟩

theorem MInv_addTranscript {m : Meeting} (h : MInv m) (uid uname text : String) (f : Bool)
    (now : Nat) : MInv (m.addTranscript uid uname text f now) := by
  obtain ⟨h1, h2, h3, h4⟩ := h
  exact ⟨by rw [addTranscript_participants]; exact h1,
    by rw [addTranscript_messages]; exact h2,
    addTranscript_bound m uid uname text f now h3,
    by rw [addTranscript_activities]; exact h4⟩

theorem MInv_votePoll {m : Meeting} (h : MInv m) (pid : Nat) (uid : String) (idx : Nat) :
    MInv (m.votePoll pid uid idx) := by
  obtain ⟨h1, h2, h3, h4⟩ := h
  exact ⟨by rw [votePoll_participants]; exact h1,
    by rw [votePoll_messages_length]; exact h2,
    by rw [votePoll_transcript]; exact h3,
    by rw [votePoll_activities]; exact h4⟩

theorem MInv_setActive {m : Meeting} (h : MInv m) (b : Bool) :
    MInv { m with isActive := b } := h

/-! ## Association-list lemmas and the server-level invariant -/

theorem lookupM_mem {α : Type} {l : List (String × α)} {k : String} {v : α}
    (h : lookupM l k = some v) : (k, v) ∈ l := by
  induction l with
  | nil => simp [lookupM] at h
  | cons pr rest ih =>
    obtain ⟨k', v'⟩ := pr
    unfold lookupM at h
    split at h
    · rename_i hk
      subst hk
      cases h
      exact List.mem_cons_self _ _
    · exact List.mem_cons_of_mem _ (ih h)

theorem setM_forall {α : Type} {P : α → Prop} {l : List (String × α)}
    (hl : ∀ pr ∈ l, P pr.2) {k : String} {v : α} (hv : P v) :
    ∀ pr ∈ setM l k v, P pr.2 := by
  induction l with
  | nil =>
    intro pr hpr
    simp [setM] at hpr
    simp [hpr, hv]
  | cons q rest ih =>
    intro pr hpr
    unfold setM at hpr
    split at hpr
    · rcases List.mem_cons.1 hpr with h | h
      · simp [h, hv]
      · exact hl _ (List.mem_cons_of_mem _ h)
    · rcases List.mem_cons.1 hpr with h | h
      · exact hl _ (h ▸ List.mem_cons_self _ _)
      · exact ih (fun pr hpr => hl _ (List.mem_cons_of_mem _ hpr)) _ h

theorem lookup_setM_self {α : Type} (l : List (String × α)) (k : String) (v : α) :
    lookupM (setM l k v) k = some v := by
  induction l with
  | nil => simp [setM, lookupM]
  | cons q rest ih =>
    unfold setM
    split
    · simp [lookupM]
    · rename_i hne
      unfold lookupM
      rw [if_neg hne]
      exact ih

theorem lookup_delM_self {α : Type} (l : List (String × α)) (k : String) :
    lookupM (delM l k) k = none := by
  induction l with
  | nil => rfl
  | cons q rest ih =>
    unfold delM List.filter
    split
    · rename_i hkeep
      unfold lookupM
      rw [if_neg]
      · exact ih
      · intro hq
        simp [hq] at hkeep
    · exact ih

theorem SInv_init : SInv initState := by
  intro pr hpr
  simp [initState] at hpr

theorem SInv_lookup {st : ServerState} (h : SInv st) {mid : String} {m : Meeting}
    (hm : lookupM st.meetings mid = some m) : MInv m :=
  h _ (lookupM_mem hm)

theorem SInv_join {st : ServerState} (h : SInv st) (sid mid uid uname : String) (now : Nat) :
    SInv (joinMeetingH st sid mid uid uname now).1 := by
  unfold joinMeetingH
  cases hm : lookupM st.meetings mid with
  | none => exact h
  | some m =>
    have hMInv : MInv m := SInv_lookup h hm
    dsimp only
    split
    · exact h
    · cases hp : m.getParticipant uid with
      | none =>
        intro pr hpr
        exact setM_forall h (MInv_addParticipant hMInv uid uname (some sid) now) pr hpr
      | some p =>
        cases hps : p.socketId with
        | none =>
          intro pr hpr
          exact setM_forall h (MInv_updateParticipant hMInv uid _ now) pr hpr
        | some oldSid =>
          dsimp only
          split
          · intro pr hpr
            exact setM_forall h (MInv_updateParticipant hMInv uid _ now) pr hpr
          · intro pr hpr
            exact setM_forall h (MInv_updateParticipant hMInv uid _ now) pr hpr

theorem SInv_leave {st : ServerState} (h : SInv st) (sid mid uid : String) (now : Nat) :
    SInv (leaveMeetingH st sid mid uid now).1 := by
  unfold leaveMeetingH
  cases hm : lookupM st.meetings mid with
  | none => exact h
  | some m =>
    intro pr hpr
    exact setM_forall h (MInv_removeParticipant (SInv_lookup h hm) uid now) pr hpr

theorem SInv_disconnect {st : ServerState} (h : SInv st) (sid : String) :
    SInv (disconnectH st sid).1 := by
  unfold disconnectH
  cases lookupM st.activeSockets sid with
  | none => exact h
  | some sess => exact h

theorem SInv_chat {st : ServerState} (h : SInv st) (d : ChatData) (freshId : Nat) :
    SInv (chatMessageH st d freshId).1 := by
  unfold chatMessageH
  cases hm : lookupM st.meetings d.meetingId with
  | none => exact h
  | some m =>
    intro pr hpr
    exact setM_forall h (MInv_addMessage (SInv_lookup h hm) _) pr hpr

theorem SInv_vote {st : ServerState} (h : SInv st) (d : VoteData) :
    SInv (votePollH st d).1 := by
  unfold votePollH
  cases hm : lookupM st.meetings d.meetingId with
  | none => exact h
  | some m =>
    intro pr hpr
    exact setM_forall h (MInv_votePoll (SInv_lookup h hm) d.pollId d.userId d.optionIndex) pr hpr

theorem SInv_transcript {st : ServerState} (h : SInv st) (sid : String) (d : TranscriptData)
    (now : Nat) : SInv (transcriptH st sid d now).1 := by
  unfold transcriptH
  cases hm : lookupM st.meetings d.meetingId with
  | none => exact h
  | some m =>
    dsimp only
    split
    · intro pr hpr
      exact setM_forall h (MInv_addTranscript (SInv_lookup h hm) d.userId d.username d.text d.isFinal now) pr hpr
    · exact h

theorem SInv_toggleAudio {st : ServerState} (h : SInv st) (mid uid : String) (v : Bool)
    (now : Nat) : SInv (toggleAudioH st mid uid v now).1 := by
  unfold toggleAudioH
  cases hm : lookupM st.meetings mid with
  | none => exact h
  | some m =>
    intro pr hpr
    exact setM_forall h (MInv_updateParticipant (SInv_lookup h hm) uid _ now) pr hpr

theorem SInv_hostMute {st : ServerState} (h : SInv st) (d : MuteData) (now : Nat) :
    SInv (hostMuteH st d now).1 := by
  unfold hostMuteH
  cases hm : lookupM st.meetings d.meetingId with
  | none => exact h
  | some m =>
    dsimp only
    split
    · intro pr hpr
      exact setM_forall h (MInv_updateParticipant (SInv_lookup h hm) d.targetUserId _ now) pr hpr
    · exact h

theorem SInv_hostKick {st : ServerState} (h : SInv st) (d : KickData) (now : Nat) :
    SInv (hostKickH st d now).1 := by
  unfold hostKickH
  cases hm : lookupM st.meetings d.meetingId with
  | none => exact h
  | some m =>
    dsimp only
    split
    · intro pr hpr
      exact setM_forall h (MInv_removeParticipant (SInv_lookup h hm) d.targetUserId now) pr hpr
    · exact h

theorem SInv_create {st : ServerState} (h : SInv st) (mid hu hn t : String) :
    SInv (createMeetingH st mid hu hn t) := by
  intro pr hpr
  exact setM_forall h (MInv_mk mid hu hn t) pr hpr

theorem SInv_rehydrate {st : ServerState} (h : SInv st) (mid hu hn t : String) :
    SInv (rehydrateH st mid hu hn t) := by
  intro pr hpr
  exact setM_forall h (MInv_mk mid hu hn t) pr hpr

theorem SInv_httpJoin {st : ServerState} (h : SInv st) (mid uid uname : String) (now : Nat) :
    SInv (httpJoinH st mid uid uname now) := by
  unfold httpJoinH
  cases hm : lookupM st.meetings mid with
  | none => exact h
  | some m =>
    dsimp only
    split
    · exact h
    · intro pr hpr
      exact setM_forall h (MInv_addParticipant (SInv_lookup h hm) uid uname none now) pr hpr

theorem SInv_httpLeave {st : ServerState} (h : SInv st) (mid uid : String) (now : Nat) :
    SInv (httpLeaveH st mid uid now) := by
  unfold httpLeaveH
  cases hm : lookupM st.meetings mid with
  | none => exact h
  | some m =>
    intro pr hpr
    exact setM_forall h (MInv_removeParticipant (SInv_lookup h hm) uid now) pr hpr

theorem SInv_httpEnd {st : ServerState} (h : SInv st) (mid uid : String) :
    SInv (httpEndH st mid uid) := by
  unfold httpEndH
  cases hm : lookupM st.meetings mid with
  | none => exact h
  | some m =>
    dsimp only
    split
    · exact h
    · intro pr hpr
      exact setM_forall h (MInv_setActive (SInv_lookup h hm) false) pr hpr

theorem SInv_step {st : ServerState} (h : SInv st) (op : ServerOp) : SInv (step st op).1 := by
  cases op with
  | join sid mid uid uname now => exact SInv_join h sid mid uid uname now
  | leave sid mid uid now => exact SInv_leave h sid mid uid now
  | disconnect sid => exact SInv_disconnect h sid
  | chat d freshId => exact SInv_chat h d freshId
  | vote d => exact SInv_vote h d
  | transcriptEv sid d now => exact SInv_transcript h sid d now
  | toggleAudio mid uid v now => exact SInv_toggleAudio h mid uid v now
  | hostMute d now => exact SInv_hostMute h d now
  | hostKick d now => exact SInv_hostKick h d now
  | httpCreate mid hu hn t => exact SInv_create h mid hu hn t
  | rehydrate mid hu hn t => exact SInv_rehydrate h mid hu hn t
  | httpJoin mid uid uname now => exact SInv_httpJoin h mid uid uname now
  | httpLeave mid uid now => exact SInv_httpLeave h mid uid now
  | httpEnd mid uid => exact SInv_httpEnd h mid uid

theorem SInv_runOps (ops : List ServerOp) : SInv (runOps initState ops) := by
  suffices h : ∀ st, SInv st → SInv (runOps st ops) from h initState SInv_init
  induction ops with
  | nil => intro st h; exact h
  | cons op rest ih =>
    intro st h
    exact ih _ (SInv_step h op)

/-! ## String-order lemmas for initiator selection -/

theorem shouldInitiate_asymm {a b : String} (h : a ≠ b) :
    shouldInitiate a b = !shouldInitiate b a := by
  unfold shouldInitiate
  rcases lt_trichotomy a b with hlt | heq | hgt
  · simp [hlt, lt_asymm hlt]
  · exact absurd heq h
  · simp [hgt, lt_asymm hgt]

theorem initiatorOf_comm (a b : String) : initiatorOf a b = initiatorOf b a := by
  unfold initiatorOf shouldInitiate
  rcases lt_trichotomy a b with hlt | heq | hgt
  · simp [hlt, lt_asymm hlt]
  · simp [heq]
  · simp [hgt, lt_asymm hgt]

theorem userJoinedPcDecision_flag {localId : String} {hasStream : Bool}
    {pcs : List String} {d : UserJoinedData} {rid : String} {flag : Bool}
    (h : userJoinedPcDecision localId hasStream pcs d = some (rid, flag)) :
    rid = d.socketId ∧ flag = shouldInitiate localId d.socketId := by
  unfold userJoinedPcDecision at h
  split at h
  · cases h
  · split at h
    · cases h
      exact ⟨rfl, rfl⟩
    · cases h

theorem joinedMeetingPcDecision_flag {localId : String} {hasStream : Bool}
    {pcs : List String} {remoteId rid : String} {flag : Bool}
    (h : joinedMeetingPcDecision localId hasStream pcs remoteId = some (rid, flag)) :
    rid = remoteId ∧ flag = shouldInitiate localId remoteId := by
  unfold joinedMeetingPcDecision at h
  split at h
  · cases h
  · split at h
    · cases h
    · split at h
      · cases h
      · cases h
        exact ⟨rfl, rfl⟩

/-! ## Claim C1 -/

/-- C1: for any two distinct connection ids, the `localId < remoteId`
comparison is total and asymmetric — exactly one of the two sides computes
`shouldInitiate = true` — and both sides agree on which connection id is
the initiator; moreover, in both the `joined-meeting` and `user-joined`
handlers the `shouldInitiate` flag passed to `createPeerConnection` is
always the comparison of the local socket id with the event's *current*
socket id, never a cached value (it is a function of those ids alone). -/
theorem deterministic_initiator_agreement (a b : String) (h : a ≠ b) :
    (shouldInitiate a b = !shouldInitiate b a) ∧
    initiatorOf a b = initiatorOf b a ∧
    (∀ (localId : String) (hasStream : Bool) (pcs : List String) (d : UserJoinedData)
      (rid : String) (flag : Bool),
      userJoinedPcDecision localId hasStream pcs d = some (rid, flag) →
        rid = d.socketId ∧ flag = shouldInitiate localId d.socketId) ∧
    (∀ (localId : String) (hasStream : Bool) (pcs : List String) (remoteId rid : String)
      (flag : Bool),
      joinedMeetingPcDecision localId hasStream pcs remoteId = some (rid, flag) →
        rid = remoteId ∧ flag = shouldInitiate localId remoteId) :=
  ⟨shouldInitiate_asymm h, initiatorOf_comm a b,
    fun _ _ _ _ _ _ hd => userJoinedPcDecision_flag hd,
    fun _ _ _ _ _ _ hd => joinedMeetingPcDecision_flag hd⟩

/-- Witness for C1 at the concrete connection ids "a1" and "b2". -/
theorem deterministic_initiator_agreement_witness :
    ("a1" : String) ≠ "b2" ∧
    ((shouldInitiate "a1" "b2" = !shouldInitiate "b2" "a1") ∧
      initiatorOf "a1" "b2" = initiatorOf "b2" "a1" ∧
      (∀ (localId : String) (hasStream : Bool) (pcs : List String) (d : UserJoinedData)
        (rid : String) (flag : Bool),
        userJoinedPcDecision localId hasStream pcs d = some (rid, flag) →
          rid = d.socketId ∧ flag = shouldInitiate localId d.socketId) ∧
      (∀ (localId : String) (hasStream : Bool) (pcs : List String) (remoteId rid : String)
        (flag : Bool),
        joinedMeetingPcDecision localId hasStream pcs remoteId = some (rid, flag) →
          rid = remoteId ∧ flag = shouldInitiate localId remoteId)) :=
  ⟨by decide, deterministic_initiator_agreement "a1" "b2" (by decide)⟩

/-! ## Claim C2 -/

theorem handleOffer_glare_polite {pc : PeerConn} (localId senderId : String)
    (hs : pc.signalingState = .haveLocalOffer)
    (hlt : shouldInitiate localId senderId = true) :
    handleOffer localId senderId (some pc) =
      (some { signalingState := .stable }, [.answerEmit senderId]) := by
  simp [handleOffer, answerPhase, hs, hlt]

theorem handleOffer_glare_impolite {pc : PeerConn} (localId senderId : String)
    (hs : pc.signalingState = .haveLocalOffer)
    (hlt : shouldInitiate localId senderId = false) :
    handleOffer localId senderId (some pc) = (some pc, []) := by
  simp [handleOffer, hs, hlt]

/-- C2 counterexample: the claim says that during glare the side that is
NOT the deterministic initiator (here the local peer "b", lexicographically
larger than the sender "a") rolls back its pending local offer and accepts
the incoming one.  In the code the opposite happens: peer "b" returns with
its own offer still pending and emits nothing — in particular it does not
reach the rolled-back/answered state the claim demands. -/
theorem glare_roles_reversed_cx :
    handleOffer "b" "a" (some { signalingState := .haveLocalOffer }) =
      (some { signalingState := .haveLocalOffer }, []) ∧
    handleOffer "b" "a" (some { signalingState := .haveLocalOffer }) ≠
      (some { signalingState := .stable }, [.answerEmit "a"]) := by
  have h : shouldInitiate "b" "a" = false := by
    simp [shouldInitiate, String.lt_iff_toList_lt]
    decide
  refine ⟨handleOffer_glare_impolite "b" "a" rfl h, ?_⟩
  rw [handleOffer_glare_impolite "b" "a" rfl h]
  decide

/-- C2 (amended): when a remote offer arrives while the local peer
connection is in `have-local-offer` (glare), the side that IS the
deterministic initiator (lexicographically smaller connection id) rolls
back its own pending offer and accepts the incoming one (emitting an
answer), while the side that is not the initiator ignores the incoming
offer, so the non-initiator's offer wins. -/
theorem glare_initiator_rolls_back (localId senderId : String) (pc : PeerConn)
    (hs : pc.signalingState = .haveLocalOffer) :
    (shouldInitiate localId senderId = true →
      handleOffer localId senderId (some pc) =
        (some { signalingState := .stable }, [.answerEmit senderId])) ∧
    (shouldInitiate localId senderId = false →
      handleOffer localId senderId (some pc) = (some pc, [])) :=
  ⟨fun hlt => handleOffer_glare_polite localId senderId hs hlt,
    fun hlt => handleOffer_glare_impolite localId senderId hs hlt⟩

/-- Witness for the amended C2 at concrete ids "a" (local) and "b" (sender). -/
theorem glare_initiator_rolls_back_witness :
    (PeerConn.mk .haveLocalOffer).signalingState = .haveLocalOffer ∧
    ((shouldInitiate "a" "b" = true →
      handleOffer "a" "b" (some (PeerConn.mk .haveLocalOffer)) =
        (some { signalingState := .stable }, [.answerEmit "b"])) ∧
    (shouldInitiate "a" "b" = false →
      handleOffer "a" "b" (some (PeerConn.mk .haveLocalOffer)) =
        (some (PeerConn.mk .haveLocalOffer), []))) :=
  ⟨rfl, glare_initiator_rolls_back "a" "b" (PeerConn.mk .haveLocalOffer) rfl⟩

/-! ## Claim C3 -/

theorem length_filter_ne_of_mem {l : List Participant} {uid : String}
    (hnd : (l.map Participant.userId).Nodup) (hex : ∃ p ∈ l, p.userId = uid) :
    (l.filter (fun p => p.userId ≠ uid)).length + 1 = l.length := by
  induction l with
  | nil => simp at hex
  | cons q rest ih =>
    rw [List.map_cons, List.nodup_cons] at hnd
    by_cases hq : q.userId = uid
    · have hrest : rest.filter (fun p => p.userId ≠ uid) = rest := by
        rw [List.filter_eq_self]
        intro p hp
        have hne : p.userId ≠ uid := by
          intro hpu
          have hm : p.userId ∈ List.map Participant.userId rest :=
            List.mem_map_of_mem _ hp
          rw [hpu, ← hq] at hm
          exact hnd.1 hm
        simpa using hne
      rw [List.filter_cons, if_neg (by simp [hq])]
      rw [hrest]
      simp
    · have hex' : ∃ p ∈ rest, p.userId = uid := by
        obtain ⟨p, hp, hpu⟩ := hex
        rcases List.mem_cons.1 hp with rfl | hp'
        · exact absurd hpu hq
        · exact ⟨p, hp', hpu⟩
      have hih := ih hnd.2 hex'
      rw [List.filter_cons, if_pos (by simpa using hq)]
      simp only [List.length_cons]
      omega

theorem addParticipant_countP (m : Meeting) (uid uname : String) (sid : Option String)
    (now : Nat) :
    (m.addParticipant uid uname sid now).participants.countP
      (fun p => p.userId == uid) = 1 := by
  unfold Meeting.addParticipant
  rw [addActivity_participants]
  dsimp only
  rw [List.countP_append]
  have h0 : (m.participants.filter (fun p => p.userId ≠ uid)).countP
      (fun p => p.userId == uid) = 0 := by
    rw [List.countP_eq_zero]
    intro p hp
    have := List.of_mem_filter hp
    simpa using this
  simp [h0]

theorem addParticipant_length_of_mem (m : Meeting) (uid uname : String)
    (sid : Option String) (now : Nat)
    (hnd : (m.participants.map Participant.userId).Nodup)
    (hex : ∃ p ∈ m.participants, p.userId = uid) :
    (m.addParticipant uid uname sid now).participants.length = m.participants.length := by
  unfold Meeting.addParticipant
  rw [addActivity_participants]
  dsimp only
  rw [List.length_append]
  simpa using length_filter_ne_of_mem hnd hex

/-- C3: across every sequence of operations (socket join, leave, disconnect,
moderation, HTTP create/join/leave/end, store rehydration, chat/poll/
transcript traffic), every resident meeting's participants list has
pairwise-distinct `userId`s; and a rejoin by an existing `userId` replaces
the existing entry — afterwards exactly one entry carries that `userId`,
and the list is no longer than before. -/
theorem participants_unique_by_userId :
    (∀ ops : List ServerOp, ∀ pr ∈ (runOps initState ops).meetings,
      (pr.2.participants.map Participant.userId).Nodup) ∧
    (∀ (m : Meeting) (uid uname : String) (sid : Option String) (now : Nat),
      (m.participants.map Participant.userId).Nodup →
      ((m.addParticipant uid uname sid now).participants.countP
          (fun p => p.userId == uid) = 1) ∧
      ((∃ p ∈ m.participants, p.userId = uid) →
        (m.addParticipant uid uname sid now).participants.length =
          m.participants.length)) :=
  ⟨fun ops pr hpr => (SInv_runOps ops pr hpr).1,
    fun m uid uname sid now hnd =>
      ⟨addParticipant_countP m uid uname sid now,
        fun hex => addParticipant_length_of_mem m uid uname sid now hnd hex⟩⟩

/-- Witness for C3: a meeting created over HTTP, and a rejoin of the
existing user "u1" in `sampleMeeting`. -/
theorem participants_unique_by_userId_witness :
    (("M", mkMeeting "M" "h" "H" "t") ∈
        (runOps initState [.httpCreate "M" "h" "H" "t"]).meetings ∧
      ((mkMeeting "M" "h" "H" "t").participants.map Participant.userId).Nodup) ∧
    ((sampleMeeting.participants.map Participant.userId).Nodup ∧
      (∃ p ∈ sampleMeeting.participants, p.userId = "u1") ∧
      (sampleMeeting.addParticipant "u1" "Alice" (some "new") 5).participants.countP
        (fun p => p.userId == "u1") = 1 ∧
      (sampleMeeting.addParticipant "u1" "Alice" (some "new") 5).participants.length =
        sampleMeeting.participants.length) := by
  have hmem : ("M", mkMeeting "M" "h" "H" "t") ∈
      (runOps initState [.httpCreate "M" "h" "H" "t"]).meetings := by
    simp [runOps, step, createMeetingH, initState, setM]
  have hnd : (sampleMeeting.participants.map Participant.userId).Nodup := by
    simp [sampleMeeting, sampleParticipant, mkMeeting]
  have hex : ∃ p ∈ sampleMeeting.participants, p.userId = "u1" := by
    refine ⟨sampleParticipant, ?_, rfl⟩
    simp [sampleMeeting]
  exact ⟨⟨hmem, participants_unique_by_userId.1 [.httpCreate "M" "h" "H" "t"] _ hmem⟩,
    ⟨hnd, hex,
      (participants_unique_by_userId.2 sampleMeeting "u1" "Alice" (some "new") 5 hnd).1,
      (participants_unique_by_userId.2 sampleMeeting "u1" "Alice" (some "new") 5 hnd).2 hex⟩⟩

/-! ## Claim C4 -/

theorem updateParticipant_socketId (m : Meeting) (uid : String) (v : Option String)
    (now : Nat) {p : Participant} (hp : m.getParticipant uid = some p) :
    m.updateParticipant uid { socketId := some v } now =
      { m with participants := replaceFirst m.participants uid { p with socketId := v } } := by
  unfold Meeting.updateParticipant
  rw [hp]
  rfl

theorem joinMeetingH_reconnect (st : ServerState) (sid mid uid uname : String)
    (now : Nat) {m : Meeting} {p : Participant} {oldSid : String}
    (hlook : lookupM st.meetings mid = some m) (hact : m.isActive = true)
    (hpart : m.getParticipant uid = some p) (hps : p.socketId = some oldSid)
    (hne : oldSid ≠ sid) :
    joinMeetingH st sid mid uid uname now =
      (let m' := m.updateParticipant uid { socketId := some (some sid) } now;
        ({ st with
            meetings := setM st.meetings mid m'
            activeSockets := delM (setM st.activeSockets sid ⟨uid, uname, mid⟩) oldSid
            rooms := joinRoom st.rooms mid sid },
          [.userDisconnected mid sid uid uname oldSid,
            .joinedMeeting sid mid (rosterOf m'.participants sid) sid m'.getChatHistory,
            .userJoined mid sid uid uname sid now])) := by
  unfold joinMeetingH
  rw [hlook]
  dsimp only
  rw [hact]
  simp only [Bool.not_true, Bool.false_eq_true, if_false, hpart, hps]
  rw [if_pos hne]
  rfl

/-- C4: a socket join for a user already present with a different stored
socket id (reconnect) replaces that participant's `socketId` in place — the
stored list becomes `replaceFirst` of the old one and keeps its length, so
no second entry appears — emits a `user-disconnected` notice to the rest of
the room naming the *old* socket id, and drops the old socket's
`activeSockets` registration. -/
theorem reconnect_updates_connection (st : ServerState) (sid mid uid uname : String)
    (now : Nat) (m : Meeting) (p : Participant) (oldSid : String)
    (hlook : lookupM st.meetings mid = some m) (hact : m.isActive = true)
    (hpart : m.getParticipant uid = some p) (hps : p.socketId = some oldSid)
    (hne : oldSid ≠ sid) :
    lookupM (joinMeetingH st sid mid uid uname now).1.meetings mid =
      some (m.updateParticipant uid { socketId := some (some sid) } now) ∧
    (m.updateParticipant uid { socketId := some (some sid) } now).participants =
      replaceFirst m.participants uid { p with socketId := some sid } ∧
    (m.updateParticipant uid { socketId := some (some sid) } now).participants.length =
      m.participants.length ∧
    Emit.userDisconnected mid sid uid uname oldSid ∈
      (joinMeetingH st sid mid uid uname now).2 ∧
    lookupM (joinMeetingH st sid mid uid uname now).1.activeSockets oldSid = none := by
  have hr := joinMeetingH_reconnect st sid mid uid uname now hlook hact hpart hps hne
  refine ⟨?_, ?_, ?_, ?_, ?_⟩
  · rw [hr]
    exact lookup_setM_self _ _ _
  · rw [updateParticipant_socketId m uid (some sid) now hpart]
  · exact updateParticipant_length m uid _ now
  · rw [hr]
    exact List.mem_cons_self _ _
  · rw [hr]
    exact lookup_delM_self _ _

/-- Witness for C4: the user "u1" of `sampleState` (stored socket "old")
rejoins meeting "M1" on the new socket "new". -/
theorem reconnect_updates_connection_witness :
    (lookupM sampleState.meetings "M1" = some sampleMeeting ∧
      sampleMeeting.isActive = true ∧
      sampleMeeting.getParticipant "u1" = some sampleParticipant ∧
      sampleParticipant.socketId = some "old" ∧
      ("old" : String) ≠ "new") ∧
    (lookupM (joinMeetingH sampleState "new" "M1" "u1" "Alice" 5).1.meetings "M1" =
      some (sampleMeeting.updateParticipant "u1" { socketId := some (some "new") } 5) ∧
    (sampleMeeting.updateParticipant "u1" { socketId := some (some "new") } 5).participants =
      replaceFirst sampleMeeting.participants "u1"
        { sampleParticipant with socketId := some "new" } ∧
    (sampleMeeting.updateParticipant "u1"
        { socketId := some (some "new") } 5).participants.length =
      sampleMeeting.participants.length ∧
    Emit.userDisconnected "M1" "new" "u1" "Alice" "old" ∈
      (joinMeetingH sampleState "new" "M1" "u1" "Alice" 5).2 ∧
    lookupM (joinMeetingH sampleState "new" "M1" "u1" "Alice" 5).1.activeSockets "old" =
      none) := by
  have h1 : lookupM sampleState.meetings "M1" = some sampleMeeting := by
    simp [sampleState, lookupM]
  have h2 : sampleMeeting.isActive = true := rfl
  have h3 : sampleMeeting.getParticipant "u1" = some sampleParticipant := by
    simp [sampleMeeting, Meeting.getParticipant, sampleParticipant, mkMeeting]
  have h4 : sampleParticipant.socketId = some "old" := rfl
  have h5 : ("old" : String) ≠ "new" := by decide
  exact ⟨⟨h1, h2, h3, h4, h5⟩,
    reconnect_updates_connection sampleState "new" "M1" "u1" "Alice" 5
      sampleMeeting sampleParticipant "old" h1 h2 h3 h4 h5⟩

/-! ## Claim C5 -/

/-- C5: a `host-mute-participant` or `host-kick-participant` request whose
`hostUserId` differs from the meeting's recorded host leaves the entire
server state untouched (no participant flag, no removal, no room change)
and emits nothing to anyone, the requester included. -/
theorem moderation_requires_host (st : ServerState) (dm : MuteData) (dk : KickData)
    (now now2 : Nat) (m1 m2 : Meeting)
    (hm : lookupM st.meetings dm.meetingId = some m1) (hmh : m1.host ≠ dm.hostUserId)
    (hk : lookupM st.meetings dk.meetingId = some m2) (hkh : m2.host ≠ dk.hostUserId) :
    hostMuteH st dm now = (st, []) ∧ hostKickH st dk now2 = (st, []) := by
  constructor
  · unfold hostMuteH
    rw [hm]
    dsimp only
    rw [if_neg hmh]
  · unfold hostKickH
    rw [hk]
    dsimp only
    rw [if_neg hkh]

/-- Witness for C5: the non-host "intruder" tries to mute and to kick "u1"
in `sampleState`. -/
theorem moderation_requires_host_witness :
    (lookupM sampleState.meetings "M1" = some sampleMeeting ∧
      sampleMeeting.host ≠ "intruder") ∧
    hostMuteH sampleState ⟨"M1", "intruder", "u1", "old"⟩ 9 = (sampleState, []) ∧
    hostKickH sampleState ⟨"M1", "intruder", "u1", "old", "Alice"⟩ 9 =
      (sampleState, []) := by
  have h1 : lookupM sampleState.meetings "M1" = some sampleMeeting := by
    simp [sampleState, lookupM]
  have h2 : sampleMeeting.host ≠ "intruder" := by decide
  exact ⟨⟨h1, h2⟩,
    moderation_requires_host sampleState ⟨"M1", "intruder", "u1", "old"⟩
      ⟨"M1", "intruder", "u1", "old", "Alice"⟩ 9 9 sampleMeeting sampleMeeting
      h1 h2 h1 h2⟩

/-! ## Claim C6 -/

/-- C6: every meeting reachable by any operation sequence keeps
`messages ≤ 500`, `transcript ≤ 1000` and `activities ≤ 500`; and appending
a message to a meeting whose chat log is exactly at the 500 cap evicts the
oldest entry: the result is `drop 1 ++ [msg]` — the remaining entries in
arrival order — and the length stays 500. -/
theorem bounded_logs :
    (∀ ops : List ServerOp, ∀ pr ∈ (runOps initState ops).meetings,
      pr.2.messages.length ≤ 500 ∧ pr.2.transcript.length ≤ 1000 ∧
        pr.2.activities.length ≤ 500) ∧
    (∀ (m : Meeting) (msg : ChatMessage), m.messages.length = 500 →
      (m.addMessage msg).messages = m.messages.drop 1 ++ [msg] ∧
      (m.addMessage msg).messages.length = 500) := by
  constructor
  · intro ops pr hpr
    exact (SInv_runOps ops pr hpr).2
  · intro m msg h500
    have hfull : pushBounded 500 m.messages msg = m.messages.drop 1 ++ [msg] :=
      pushBounded_full msg h500 (by omega)
    have hmm : (m.addMessage msg).messages = pushBounded 500 m.messages msg := rfl
    constructor
    · rw [hmm, hfull]
    · rw [hmm, hfull]
      simp [h500]

/-- Witness for C6: a meeting created over HTTP, and `fullMeeting` (500
stored messages) receiving `extraMsg`. -/
theorem bounded_logs_witness :
    (("M", mkMeeting "M" "h" "H" "t") ∈
        (runOps initState [.httpCreate "M" "h" "H" "t"]).meetings ∧
      ((mkMeeting "M" "h" "H" "t").messages.length ≤ 500 ∧
        (mkMeeting "M" "h" "H" "t").transcript.length ≤ 1000 ∧
        (mkMeeting "M" "h" "H" "t").activities.length ≤ 500)) ∧
    (fullMeeting.messages.length = 500 ∧
      (fullMeeting.addMessage extraMsg).messages =
        fullMeeting.messages.drop 1 ++ [extraMsg] ∧
      (fullMeeting.addMessage extraMsg).messages.length = 500) := by
  have hmem : ("M", mkMeeting "M" "h" "H" "t") ∈
      (runOps initState [.httpCreate "M" "h" "H" "t"]).meetings := by
    simp [runOps, step, createMeetingH, initState, setM]
  have h500 : fullMeeting.messages.length = 500 := by
    simp [fullMeeting]
  exact ⟨⟨hmem, bounded_logs.1 [.httpCreate "M" "h" "H" "t"] _ hmem⟩,
    ⟨h500, (bounded_logs.2 fullMeeting extraMsg h500).1,
      (bounded_logs.2 fullMeeting extraMsg h500).2⟩⟩

/-! ## Claim C7 -/

theorem voteOptions_get? (u : String) (i : Nat) (opts : List PollOption) (j : Nat) :
    (voteOptions u i opts).get? j = (opts.get? j).map (fun opt =>
      let votes := opt.votes.filter (fun v => v ≠ u)
      let votes' := if j = i then votes ++ [u] else votes
      { opt with votes := votes', count := votes'.length }) := by
  unfold voteOptions
  rw [List.get?_map, List.get?_enum]
  cases opts.get? j <;> rfl

theorem voteOptions_length (u : String) (i : Nat) (opts : List PollOption) :
    (voteOptions u i opts).length = opts.length := by
  simp [voteOptions]

theorem mem_votes_voteOptions (u : String) (i : Nat) (opts : List PollOption)
    {j : Nat} {o : PollOption} (ho : (voteOptions u i opts).get? j = some o) :
    u ∈ o.votes ↔ j = i := by
  rw [voteOptions_get?] at ho
  cases hoj : opts.get? j with
  | none => rw [hoj] at ho; cases ho
  | some opt =>
    rw [hoj] at ho
    cases ho
    by_cases hj : j = i
    · simp [hj]
    · simp only [hj, if_false, iff_false]
      intro hmem
      have := List.of_mem_filter hmem
      simp at this

theorem countP_eq_one_of_unique {α : Type} (l : List α) (pred : α → Bool) (i : Nat)
    (hi : i < l.length) (h : ∀ j o, l.get? j = some o → (pred o = true ↔ j = i)) :
    l.countP pred = 1 := by
  induction l generalizing i with
  | nil => simp at hi
  | cons a rest ih =>
    cases i with
    | zero =>
      have ha : pred a = true := (h 0 a rfl).2 rfl
      have hrest : rest.countP pred = 0 := by
        rw [List.countP_eq_zero]
        intro b hb
        obtain ⟨j, hj⟩ := List.get?_of_mem hb
        intro hb'
        have := (h (j + 1) b (by simpa using hj)).1 hb'
        simp at this
      rw [List.countP_cons, ha, hrest]
      simp
    | succ i' =>
      have ha : pred a = false := by
        have := h 0 a rfl
        simp only [Nat.succ_ne_zero, iff_false] at this
        exact Bool.eq_false_iff.2 (by simpa using this)
      have hrec : rest.countP pred = 1 :=
        ih i' (by simpa using hi)
          (fun j o hj => by simpa using h (j + 1) o (by simpa using hj))
      rw [List.countP_cons, ha, hrec]
      simp

theorem filter_ne_append_u (u : String) (votes : List String) :
    ((votes.filter (fun v => v ≠ u)) ++ [u]).filter (fun v => v ≠ u) =
      votes.filter (fun v => v ≠ u) := by
  rw [List.filter_append, List.filter_filter]
  simp

theorem voteOptions_idem (u : String) (i : Nat) (opts : List PollOption) :
    voteOptions u i (voteOptions u i opts) = voteOptions u i opts := by
  apply List.ext_get?
  intro j
  rw [voteOptions_get?, voteOptions_get?]
  cases opts.get? j with
  | none => rfl
  | some opt =>
    simp only [Option.map_some']
    by_cases hj : j = i
    · subst hj
      simp only [eq_self_iff_true, ite_true]
      rw [filter_ne_append_u]
    · simp only [if_neg hj]
      rw [List.filter_filter]
      simp

theorem voteOptions_count_eq (u : String) (i : Nat) (opts : List PollOption) :
    ∀ o ∈ voteOptions u i opts, o.count = o.votes.length := by
  intro o ho
  unfold voteOptions at ho
  obtain ⟨pr, _, rfl⟩ := List.mem_map.1 ho
  rfl

theorem voteOptions_nodup (u : String) (i : Nat) (opts : List PollOption)
    (h : ∀ o ∈ opts, o.votes.Nodup) : ∀ o ∈ voteOptions u i opts, o.votes.Nodup := by
  intro o ho
  unfold voteOptions at ho
  obtain ⟨pr, hpr, rfl⟩ := List.mem_map.1 ho
  have hmem : pr.2 ∈ opts := by
    have hg := List.mem_enum_iff_get?.1 hpr
    exact List.get?_mem hg
  have hnd : pr.2.votes.Nodup := h _ hmem
  have hfil : (pr.2.votes.filter (fun v => v ≠ u)).Nodup := hnd.filter _
  dsimp only
  split
  · refine List.Nodup.append hfil (List.nodup_singleton u) ?_
    intro x hx hx'
    have := List.of_mem_filter hx
    simp only [List.mem_singleton] at hx'
    simp [hx'] at this
  · exact hfil

theorem foldl_voteOptions_length (u : String) (calls : List Nat) (opts : List PollOption) :
    (calls.foldl (fun acc j => voteOptions u j acc) opts).length = opts.length := by
  induction calls generalizing opts with
  | nil => rfl
  | cons c rest ih => rw [List.foldl_cons, ih, voteOptions_length]

theorem foldl_voteOptions_nodup (u : String) (calls : List Nat) (opts : List PollOption)
    (h : ∀ o ∈ opts, o.votes.Nodup) :
    ∀ o ∈ calls.foldl (fun acc j => voteOptions u j acc) opts, o.votes.Nodup := by
  induction calls generalizing opts with
  | nil => exact h
  | cons c rest ih => exact ih _ (voteOptions_nodup u c opts h)

/-- C7 counterexample: a single `vote-poll` call with the out-of-range
`optionIndex = 2` on the two-option poll `samplePollOptions` leaves "u1"
with no active vote: the number of options whose voter list contains "u1"
is 0, not exactly one as the claim demands for every call sequence. -/
theorem vote_out_of_range_cx :
    (voteOptions "u1" 2 samplePollOptions).countP
      (fun o => o.votes.contains "u1") = 0 ∧
    ¬ (voteOptions "u1" 2 samplePollOptions).countP
      (fun o => o.votes.contains "u1") = 1 := by
  decide

/-- C7 (amended): for every non-empty sequence of `vote-poll` calls by the
same `userId` on the same poll whose *last* call names a valid option index
`i < options.length`, after the last call: the user's id is in exactly the
voter list of option `i` (membership characterizes the index), exactly one
option's voter list contains the user, every option's `count` equals its
voter-list length, voter lists stay duplicate-free, and repeating the last
vote changes nothing (idempotence).  With an out-of-range last index the
user instead ends up with no vote anywhere. -/
theorem vote_last_wins (opts : List PollOption) (u : String) (calls : List Nat) (i : Nat)
    (hi : i < opts.length) :
    (∀ j o, (voteOptions u i (calls.foldl (fun acc j => voteOptions u j acc) opts)).get? j
        = some o → (u ∈ o.votes ↔ j = i)) ∧
    (voteOptions u i (calls.foldl (fun acc j => voteOptions u j acc) opts)).countP
      (fun o => o.votes.contains u) = 1 ∧
    (∀ o ∈ voteOptions u i (calls.foldl (fun acc j => voteOptions u j acc) opts),
      o.count = o.votes.length) ∧
    ((∀ o ∈ opts, o.votes.Nodup) →
      ∀ o ∈ voteOptions u i (calls.foldl (fun acc j => voteOptions u j acc) opts),
        o.votes.Nodup) ∧
    voteOptions u i (voteOptions u i (calls.foldl (fun acc j => voteOptions u j acc) opts))
      = voteOptions u i (calls.foldl (fun acc j => voteOptions u j acc) opts) := by
  have hmlen : (calls.foldl (fun acc j => voteOptions u j acc) opts).length = opts.length :=
    foldl_voteOptions_length u calls opts
  have hchar : ∀ j o,
      (voteOptions u i (calls.foldl (fun acc j => voteOptions u j acc) opts)).get? j =
        some o → (u ∈ o.votes ↔ j = i) :=
    fun _ _ ho => mem_votes_voteOptions u i _ ho
  refine ⟨hchar, ?_, voteOptions_count_eq u i _,
    fun hnod => voteOptions_nodup u i _ (foldl_voteOptions_nodup u calls opts hnod),
    voteOptions_idem u i _⟩
  apply countP_eq_one_of_unique _ _ i
  · rw [voteOptions_length, hmlen]
    exact hi
  · intro j o ho
    have hc := hchar j o ho
    constructor
    · intro hcont
      exact hc.1 (by simpa using hcont)
    · intro hji
      simpa using hc.2 hji

/-- Witness for the amended C7: on `samplePollOptions`, "u1" votes for
option 0 and then changes the vote to option 1. -/
theorem vote_last_wins_witness :
    1 < samplePollOptions.length ∧
    ((∀ j o, (voteOptions "u1" 1
          ([0].foldl (fun acc j => voteOptions "u1" j acc) samplePollOptions)).get? j
        = some o → ("u1" ∈ o.votes ↔ j = 1)) ∧
    (voteOptions "u1" 1
        ([0].foldl (fun acc j => voteOptions "u1" j acc) samplePollOptions)).countP
      (fun o => o.votes.contains "u1") = 1 ∧
    (∀ o ∈ voteOptions "u1" 1
        ([0].foldl (fun acc j => voteOptions "u1" j acc) samplePollOptions),
      o.count = o.votes.length) ∧
    ((∀ o ∈ samplePollOptions, o.votes.Nodup) →
      ∀ o ∈ voteOptions "u1" 1
          ([0].foldl (fun acc j => voteOptions "u1" j acc) samplePollOptions),
        o.votes.Nodup) ∧
    voteOptions "u1" 1 (voteOptions "u1" 1
        ([0].foldl (fun acc j => voteOptions "u1" j acc) samplePollOptions))
      = voteOptions "u1" 1
          ([0].foldl (fun acc j => voteOptions "u1" j acc) samplePollOptions)) :=
  ⟨by decide, vote_last_wins samplePollOptions "u1" [0] 1 (by decide)⟩

/-! ## Claim C8 -/

/-- C8 counterexample: a `transcript` event with `isFinal = false` and
non-blank text " hi " on the resident meeting "M1" IS appended to the
stored transcript (trimmed, with `isFinal = false`), while the claim says
interim entries are broadcast only and never stored.  The broadcast also
happens. -/
theorem interim_transcript_stored_cx :
    (lookupM (transcriptH sampleState "s1"
        ⟨"M1", "u1", "Alice", " hi ", false⟩ 7).1.meetings "M1").map Meeting.transcript =
      some [⟨"u1", "Alice", "hi", false, 7⟩] ∧
    Emit.transcriptUpdate "M1" "s1" "u1" "Alice" " hi " false 7 ∈
      (transcriptH sampleState "s1" ⟨"M1", "u1", "Alice", " hi ", false⟩ 7).2 := by
  decide

/-- C8 (amended): the `transcript` handler appends every event with
non-empty, non-blank text to the stored transcript with its `isFinal` flag
exactly as received — interim (non-final) entries included — and broadcasts
it to the rest of the room; blank events are neither stored nor broadcast.
Interim entries are therefore broadcast AND stored, not display-only. -/
theorem transcript_stores_all_nonblank (st : ServerState) (sid : String)
    (d : TranscriptData) (now : Nat) (m : Meeting)
    (hm : lookupM st.meetings d.meetingId = some m) :
    (d.text ≠ "" ∧ trimString d.text ≠ "" →
      transcriptH st sid d now =
        ({ st with meetings := setM st.meetings d.meetingId (m.addTranscript d.userId d.username d.text d.isFinal now) },
          [.transcriptUpdate d.meetingId sid d.userId d.username d.text d.isFinal now]) ∧
      (m.addTranscript d.userId d.username d.text d.isFinal now).transcript =
        pushBounded 1000 m.transcript
          ⟨d.userId, d.username, trimString d.text, d.isFinal, now⟩) ∧
    (¬ (d.text ≠ "" ∧ trimString d.text ≠ "") → transcriptH st sid d now = (st, [])) := by
  constructor
  · intro hcond
    constructor
    · unfold transcriptH
      rw [hm]
      dsimp only
      rw [if_pos hcond]
    · unfold Meeting.addTranscript
      rw [if_neg hcond.2]
  · intro hcond
    unfold transcriptH
    rw [hm]
    dsimp only
    rw [if_neg hcond]

/-- Witness for the amended C8 at the interim event " hi " on meeting "M1". -/
theorem transcript_stores_all_nonblank_witness :
    lookupM sampleState.meetings "M1" = some sampleMeeting ∧
    ((" hi " : String) ≠ "" ∧ trimString " hi " ≠ "" →
      transcriptH sampleState "s1" ⟨"M1", "u1", "Alice", " hi ", false⟩ 7 =
        ({ sampleState with meetings := setM sampleState.meetings "M1" (sampleMeeting.addTranscript "u1" "Alice" " hi " false 7) },
          [.transcriptUpdate "M1" "s1" "u1" "Alice" " hi " false 7]) ∧
      (sampleMeeting.addTranscript "u1" "Alice" " hi " false 7).transcript =
        pushBounded 1000 sampleMeeting.transcript
          ⟨"u1", "Alice", trimString " hi ", false, 7⟩) ∧
    (¬ ((" hi " : String) ≠ "" ∧ trimString " hi " ≠ "") →
      transcriptH sampleState "s1" ⟨"M1", "u1", "Alice", " hi ", false⟩ 7 =
        (sampleState, [])) := by
  have hm : lookupM sampleState.meetings "M1" = some sampleMeeting := by
    simp [sampleState, lookupM]
  exact ⟨hm, transcript_stores_all_nonblank sampleState "s1"
    ⟨"M1", "u1", "Alice", " hi ", false⟩ 7 sampleMeeting hm⟩

/-! ## Claim C9 -/

/-- C9: a transport-level disconnect of a socket bound to a (meeting, user)
broadcasts a `user-disconnected` notice to the rest of the room and removes
only the `activeSockets` registration — the meetings map (and with it the
participants list and every other meeting field) is left untouched. -/
theorem disconnect_preserves_participants (st : ServerState) (sid : String)
    (sess : Session) (m : Meeting)
    (hs : lookupM st.activeSockets sid = some sess)
    (hm : lookupM st.meetings sess.meetingId = some m) :
    (disconnectH st sid).1.meetings = st.meetings ∧
    (disconnectH st sid).1.rooms = st.rooms ∧
    (disconnectH st sid).2 =
      [.userDisconnected sess.meetingId sid sess.userId sess.username sid] ∧
    (disconnectH st sid).1.activeSockets = delM st.activeSockets sid := by
  unfold disconnectH
  rw [hs]
  dsimp only
  rw [hm]
  exact ⟨rfl, rfl, rfl, rfl⟩

/-- Witness for C9: socket "old" (bound to "u1" in meeting "M1")
disconnects from `sampleState`. -/
theorem disconnect_preserves_participants_witness :
    (lookupM sampleState.activeSockets "old" = some ⟨"u1", "Alice", "M1"⟩ ∧
      lookupM sampleState.meetings "M1" = some sampleMeeting) ∧
    ((disconnectH sampleState "old").1.meetings = sampleState.meetings ∧
      (disconnectH sampleState "old").1.rooms = sampleState.rooms ∧
      (disconnectH sampleState "old").2 =
        [.userDisconnected "M1" "old" "u1" "Alice" "old"] ∧
      (disconnectH sampleState "old").1.activeSockets =
        delM sampleState.activeSockets "old") := by
  have hs : lookupM sampleState.activeSockets "old" = some ⟨"u1", "Alice", "M1"⟩ := by
    simp [sampleState, lookupM]
  have hm : lookupM sampleState.meetings "M1" = some sampleMeeting := by
    simp [sampleState, lookupM]
  exact ⟨⟨hs, hm⟩,
    disconnect_preserves_participants sampleState "old" ⟨"u1", "Alice", "M1"⟩
      sampleMeeting hs hm⟩

/-! ## Claim C10 -/

theorem setM_self {α : Type} {l : List (String × α)} {k : String} {v : α}
    (h : lookupM l k = some v) : setM l k v = l := by
  induction l with
  | nil => simp [lookupM] at h
  | cons q rest ih =>
    obtain ⟨k', v'⟩ := q
    unfold lookupM at h
    unfold setM
    split
    · rename_i hk
      subst hk
      rw [if_pos rfl] at h
      cases h
      rfl
    · rename_i hk
      rw [if_neg hk] at h
      rw [ih h]

/-- C10: the `vote-poll` handler broadcasts `poll-voted` with the request
payload to the room on every invocation — its emit list is exactly that
broadcast — even when the meeting does not exist or no stored poll message
matches `pollId`, and in those two cases the server state is completely
unchanged, so clients can observe a vote broadcast backed by no stored-state
mutation. -/
theorem vote_broadcast_unconditional (st : ServerState) (d : VoteData) :
    (votePollH st d).2 = [.pollVoted d.meetingId d] ∧
    (lookupM st.meetings d.meetingId = none →
      votePollH st d = (st, [.pollVoted d.meetingId d])) ∧
    (∀ m, lookupM st.meetings d.meetingId = some m →
      m.messages.findIdx? (fun msg => msg.id == d.pollId && msg.type == MsgType.poll) =
        none →
      votePollH st d = (st, [.pollVoted d.meetingId d])) := by
  refine ⟨?_, ?_, ?_⟩
  · unfold votePollH
    cases lookupM st.meetings d.meetingId <;> rfl
  · intro hnone
    unfold votePollH
    rw [hnone]
  · intro m hm hfind
    unfold votePollH
    rw [hm]
    dsimp only
    have hvp : m.votePoll d.pollId d.userId d.optionIndex = m := by
      unfold Meeting.votePoll
      rw [hfind]
    rw [hvp, setM_self hm]

/-- Witness for C10: a vote for the unknown meeting "ZZ", and a vote for
meeting "M1" whose chat history holds no poll with id 42. -/
theorem vote_broadcast_unconditional_witness :
    ((votePollH sampleState ⟨"ZZ", 42, "u1", "Alice", 0⟩).2 =
      [.pollVoted "ZZ" ⟨"ZZ", 42, "u1", "Alice", 0⟩] ∧
    lookupM sampleState.meetings "ZZ" = none ∧
    votePollH sampleState ⟨"ZZ", 42, "u1", "Alice", 0⟩ =
      (sampleState, [.pollVoted "ZZ" ⟨"ZZ", 42, "u1", "Alice", 0⟩])) ∧
    (lookupM sampleState.meetings "M1" = some sampleMeeting ∧
    sampleMeeting.messages.findIdx?
      (fun msg => msg.id == (42 : Nat) && msg.type == MsgType.poll) = none ∧
    votePollH sampleState ⟨"M1", 42, "u1", "Alice", 1⟩ =
      (sampleState, [.pollVoted "M1" ⟨"M1", 42, "u1", "Alice", 1⟩])) := by
  have hz : lookupM sampleState.meetings "ZZ" = none := by
    simp [sampleState, lookupM]
  have hm : lookupM sampleState.meetings "M1" = some sampleMeeting := by
    simp [sampleState, lookupM]
  have hfind : sampleMeeting.messages.findIdx?
      (fun msg => msg.id == (42 : Nat) && msg.type == MsgType.poll) = none := by
    simp [sampleMeeting, mkMeeting]
  exact ⟨⟨(vote_broadcast_unconditional sampleState ⟨"ZZ", 42, "u1", "Alice", 0⟩).1, hz,
      (vote_broadcast_unconditional sampleState ⟨"ZZ", 42, "u1", "Alice", 0⟩).2.1 hz⟩,
    ⟨hm, hfind,
      (vote_broadcast_unconditional sampleState ⟨"M1", 42, "u1", "Alice", 1⟩).2.2
        sampleMeeting hm hfind⟩⟩

end SmartMeet
